import Mathlib

/-!
Shallow embedding of the Spark notebook connector
(`desktop/libs/notebook/src/notebook/connectors/spark_shell.py`): the
session lifecycle manager (`SparkApi.create_session`, `_check_session`,
`close_session`, `_close_unused_sessions`), the statement executor
(`_execute`, `_check_status_and_fetch_result`, `_fetch_result`), the
property merge (`get_livy_props`, `to_properties`,
`SparkConfiguration.PROPERTIES`) and the standalone log job extractor
(`_get_standalone_jobs`).

External collaborators (the Livy REST client and the per-user session
store) are modelled as explicit inputs: remote responses are passed in
as values or as call-indexed sequences, the session store as an
`Option StoredSession` threaded through each operation, and raised
exceptions as `Except` error values.  `time.sleep` is a no-op in the
model, so the fixed 1-second polling interval is represented only by
the iteration structure of the loops.  Python dicts are modelled as
insertion-ordered association lists with the update-in-place /
append-if-new semantics of CPython dicts.
-/

/-- Livy session states as used by `spark_shell.py` (the code compares the
raw JSON strings; the enum covers the states named in the module). -/
inductive SessState where
  | starting
  | idle
  | busy
  | shutting_down
  | error
  | dead
  | killed
  deriving DecidableEq, Repr

/-- The JSON string for a session state, as it appears on the wire. -/
def stateStr : SessState → String
  | SessState.starting => "starting"
  | SessState.idle => "idle"
  | SessState.busy => "busy"
  | SessState.shutting_down => "shutting_down"
  | SessState.error => "error"
  | SessState.dead => "dead"
  | SessState.killed => "killed"

/-- Property values occurring in `SparkConfiguration.PROPERTIES` and in
caller-supplied property lists: strings, ints, lists of strings, the
`conf` list of `{key, value}` dicts, and the dict the `conf` list is
converted to in `get_livy_props`. -/
inductive PVal where
  | str (s : String)
  | num (n : Int)
  | strList (l : List String)
  | confList (l : List (Option String × Option String))
  | confDict (l : List (Option String × Option String))
  deriving DecidableEq, Repr

/-- One entry of `SparkConfiguration.PROPERTIES` (a static configuration
descriptor dict in the source). -/
structure ConfProp where
  name : String
  nice_name : String
  help_text : String
  ptype : String
  is_yarn : Bool
  multiple : Bool
  defaultValue : PVal
  value : PVal
  deriving DecidableEq, Repr

/-- `SparkConfiguration.PROPERTIES` from the bottom of `spark_shell.py`,
in source order. -/
def SparkConfiguration.PROPERTIES : List ConfProp :=
  [ { name := "conf", nice_name := "Spark Conf",
      help_text := "Add one or more Spark conf properties to the session.",
      ptype := "settings", is_yarn := false, multiple := true,
      defaultValue := PVal.confList [], value := PVal.confList [] },
    { name := "jars", nice_name := "Jars",
      help_text := "Add one or more JAR files to the list of resources.",
      ptype := "csv-hdfs-files", is_yarn := false, multiple := true,
      defaultValue := PVal.strList [], value := PVal.strList [] },
    { name := "files", nice_name := "Files",
      help_text := "Files to be placed in the working directory of each executor.",
      ptype := "csv-hdfs-files", is_yarn := false, multiple := true,
      defaultValue := PVal.strList [], value := PVal.strList [] },
    { name := "pyFiles", nice_name := "pyFiles",
      help_text := "Python files to be placed in the working directory of each executor.",
      ptype := "csv-hdfs-files", is_yarn := false, multiple := true,
      defaultValue := PVal.strList [], value := PVal.strList [] },
    { name := "driverMemory", nice_name := "Driver Memory",
      help_text := "Amount of memory to use for the driver process in GB. (Default: 1). ",
      ptype := "jvm", is_yarn := false, multiple := false,
      defaultValue := PVal.str "1G", value := PVal.str "1G" },
    { name := "driverCores", nice_name := "Driver Cores",
      help_text := "Number of cores used by the driver, only in cluster mode (Default: 1)",
      ptype := "number", is_yarn := true, multiple := false,
      defaultValue := PVal.num 1, value := PVal.num 1 },
    { name := "executorMemory", nice_name := "Executor Memory",
      help_text := "Amount of memory to use per executor process in GB. (Default: 1)",
      ptype := "jvm", is_yarn := true, multiple := false,
      defaultValue := PVal.str "1G", value := PVal.str "1G" },
    { name := "executorCores", nice_name := "Executor Cores",
      help_text := "Number of cores used by the driver, only in cluster mode (Default: 1)",
      ptype := "number", is_yarn := true, multiple := false,
      defaultValue := PVal.num 1, value := PVal.num 1 },
    { name := "queue", nice_name := "Queue",
      help_text := "The YARN queue to submit to, only in cluster mode (Default: default)",
      ptype := "string", is_yarn := true, multiple := false,
      defaultValue := PVal.str "default", value := PVal.str "default" },
    { name := "archives", nice_name := "Archives",
      help_text := "Archives to be extracted into the working directory of each executor, only in cluster mode.",
      ptype := "csv-hdfs-files", is_yarn := true, multiple := true,
      defaultValue := PVal.strList [], value := PVal.strList [] } ]

/-! ## Python dict model (insertion-ordered association list) -/

/-- Dict lookup (`d[k]` / `d.get(k)`): value of the entry with key `k`. -/
def dget : List (String × PVal) → String → Option PVal
  | [], _ => none
  | p :: d, k => if p.1 = k then some p.2 else dget d k

/-- Dict assignment (`d[k] = v`): replaces the value in place when the key
is present, appends a new entry otherwise (CPython dict semantics). -/
def dset : List (String × PVal) → String → PVal → List (String × PVal)
  | [], k, v => [(k, v)]
  | p :: d, k, v => if p.1 = k then (k, v) :: d else p :: dset d k v

/-- Key membership (`k in d`). -/
def dmem (d : List (String × PVal)) (k : String) : Bool :=
  (dget d k).isSome

/-- The key sequence of a dict, in insertion order. -/
def dkeys (d : List (String × PVal)) : List String :=
  d.map Prod.fst

/-- `dict(pairs)`: build a dict from a pair list, later duplicates win. -/
def pyDict (l : List (String × PVal)) : List (String × PVal) :=
  l.foldl (fun d p => dset d p.1 p.2) []

/-- `d1.update(d2)`: fold the entries of `d2` into `d1`. -/
def dUpdate (d pd : List (String × PVal)) : List (String × PVal) :=
  pd.foldl (fun acc p => dset acc p.1 p.2) d

/-- A caller-supplied property entry: a dict that may or may not carry
`name` and `value` keys (`get_livy_props` skips entries missing either). -/
structure PEntry where
  name : Option String
  value : Option PVal
  deriving DecidableEq, Repr

/-- The `(p['name'], p['value'])` pairs of the caller entries that have
both keys (the list-comprehension filter in `get_livy_props`). -/
def validPairs (ps : List PEntry) : List (String × PVal) :=
  ps.filterMap fun e =>
    match e.name, e.value with
    | some n, some v => some (n, v)
    | _, _ => none

/-- The defaults dict built on the first line of `get_livy_props`:
`dict([(p['name'], p['value']) for p in SparkConfiguration.PROPERTIES])`. -/
def livyDefaults : List (String × PVal) :=
  pyDict (SparkConfiguration.PROPERTIES.map fun p => (p.name, p.value))

/-- The merge step of `get_livy_props` (lines 70-72): defaults dict,
updated with the valid caller-supplied entries (caller values win). -/
def livyMerge (properties : Option (List PEntry)) : List (String × PVal) :=
  match properties with
  | none => livyDefaults
  | some ps => dUpdate livyDefaults (pyDict (validPairs ps))

/-- The HUE-4761 list coercion applied to one value: a `str` value is
split on commas; values that are already Python lists are left alone;
an int or a dict has no `.split` so the code would raise. -/
def coerceListVal : PVal → Except Unit PVal
  | PVal.str s => Except.ok (PVal.strList (s.splitOn ","))
  | PVal.strList l => Except.ok (PVal.strList l)
  | PVal.confList l => Except.ok (PVal.confList l)
  | PVal.num _ => Except.error ()
  | PVal.confDict _ => Except.error ()

/-- One iteration of the `for key in ['archives', 'jars', 'files',
'pyFiles']` coercion loop of `get_livy_props`. -/
def coerceKey (k : String) (d : List (String × PVal)) : Except Unit (List (String × PVal)) :=
  match dget d k with
  | none => Except.ok d
  | some v =>
    match coerceListVal v with
    | Except.ok w => Except.ok (dset d k w)
    | Except.error e => Except.error e

/-- The full HUE-4761 coercion loop of `get_livy_props`. -/
def coerceLists (d : List (String × PVal)) : Except Unit (List (String × PVal)) := do
  let d ← coerceKey "archives" d
  let d ← coerceKey "jars" d
  let d ← coerceKey "files" d
  let d ← coerceKey "pyFiles" d
  return d

/-- Assignment into the conf dict being built (Python dict comprehension
semantics, keys may be `None`). -/
def oset : List (Option String × Option String) → Option String → Option String →
    List (Option String × Option String)
  | [], k, v => [(k, v)]
  | p :: d, k, v => if p.1 = k then (k, v) :: d else p :: oset d k v

/-- `props['conf'] = {conf.get('key'): conf.get('value') for i, conf in
enumerate(props['conf'])}`: only a list value can be enumerated into
`{key, value}` entries; anything else would raise. -/
def confToDict : PVal → Except Unit PVal
  | PVal.confList l => Except.ok (PVal.confDict (l.foldl (fun d p => oset d p.1 p.2) []))
  | _ => Except.error ()

/-- `SparkApi.get_livy_props` (lines 68-99): merge caller properties over
the defaults, coerce the four csv keys to lists, convert `conf` to a
dict, and set `kind` (with the `sparksql` → `sql` rename). -/
def get_livy_props (lang : String) (properties : Option (List PEntry)) :
    Except Unit (List (String × PVal)) := do
  let props := livyMerge properties
  let props ← coerceLists props
  let props ←
    match dget props "conf" with
    | some v => do
        let cv ← confToDict v
        pure (dset props "conf" cv)
    | none => Except.error ()
  return dset props "kind" (PVal.str (if lang = "sparksql" then "sql" else lang))

/-- `SparkApi.to_properties` (lines 102-113): copy
`SparkConfiguration.PROPERTIES` and override the `value` of every entry
whose name is a key of `props`. -/
def to_properties (props : Option (List (String × PVal))) : List ConfProp :=
  match props with
  | none => SparkConfiguration.PROPERTIES
  | some d =>
    SparkConfiguration.PROPERTIES.map fun p =>
      match dget d p.name with
      | some v => { p with value := v }
      | none => p

/-! ## Error-message classification (`_execute`, `_fetch_result`)

`_execute` lowercases the exception text and classifies it with
`re.search("session ('\d+' )?not found", message)`, `'connection
refused' in message` and `'session is in state busy' in message`.  The
regex is embedded as an executable scanner over `List Char`; its
equivalence with the declarative decomposition is proved below. -/

/-- The single-quote character (kept out of string literals). -/
def qc : Char := '\''

/-- `message = force_unicode(str(e)).lower()`: the lowercased character
sequence of an exception message. -/
def pyLower (e : String) : List Char := e.toList.map Char.toLower

/-- Literal match at the head: `litAt pat s` is true when `pat` is a
prefix of `s`. -/
def litAt : List Char → List Char → Bool
  | [], _ => true
  | _ :: _, [] => false
  | p :: ps, c :: cs => p = c && litAt ps cs

/-- Strip a literal from the head, returning the rest on success. -/
def stripLit : List Char → List Char → Option (List Char)
  | [], s => some s
  | _ :: _, [] => none
  | p :: ps, c :: cs => if p = c then stripLit ps cs else none

/-- Unanchored search: does any suffix of `s` satisfy `f`? -/
def searchBy (f : List Char → Bool) : List Char → Bool
  | [] => f []
  | s@(_ :: cs) => f s || searchBy f cs

/-- Substring containment (`pat in s` on Python strings). -/
def containsSeg (pat s : List Char) : Bool := searchBy (litAt pat) s

/-- The regex `session ('\d+' )?not found` matched at the head of `s`:
either `session not found` directly, or `session '` followed by one or
more digits, `' `, then `not found`. -/
def sessGoneAt (s : List Char) : Bool :=
  match stripLit "session ".toList s with
  | none => false
  | some r =>
    litAt "not found".toList r ||
    (match r with
     | c :: r2 =>
       c = qc &&
       (let ds := r2.takeWhile Char.isDigit
        !ds.isEmpty && litAt ([qc] ++ " not found".toList) (r2.drop ds.length))
     | [] => false)

/-- `re.search("session ('\d+' )?not found", message)` as a boolean. -/
def sessGoneSearch (s : List Char) : Bool := searchBy sessGoneAt s

/-- The disjunction on line 203 of `spark_shell.py` deciding whether a
submit error is reclassified as `SessionExpired`. -/
def livyErrMatch (message : List Char) : Bool :=
  sessGoneSearch message || containsSeg "connection refused".toList message ||
    containsSeg "session is in state busy".toList message

/-- Errors escaping the submit block of `_execute`. -/
inductive ExecErr where
  | sessionExpired (msg : String)
  | other (msg : String)
  deriving DecidableEq, Repr

/-- The success payload of `_execute`:
`{'id': response['id'], 'has_result_set': True, 'sync': False}`. -/
structure ExecResp where
  id : Nat
  has_result_set : Bool
  sync : Bool
  deriving DecidableEq, Repr

/-- The `try/except` submit block of `SparkApi._execute` (lines
194-206): on success wrap the statement id; on an exception, lowercase
the message and raise `SessionExpired` when it matches the session-gone
regex or contains one of the two literals, otherwise re-raise
unchanged. -/
def submit_translate (submitRes : Except String Nat) : Except ExecErr ExecResp :=
  match submitRes with
  | Except.ok i => Except.ok { id := i, has_result_set := true, sync := false }
  | Except.error e =>
    if livyErrMatch (pyLower e) then Except.error (ExecErr.sessionExpired e)
    else Except.error (ExecErr.other e)

/-! ## Result fetching and normalization (`_fetch_result`) -/

/-- A field descriptor (`{name, type}`) from a table header or a JSON
schema. -/
structure FieldDesc where
  name : String
  ftype : String
  deriving DecidableEq, Repr

/-- `data['application/vnd.livy.table.v1+json']`. -/
structure TableData where
  data : List (List String)
  headers : List FieldDesc
  deriving DecidableEq, Repr

/-- `data['application/json']` (with `schema.fields`). -/
structure JsonResult where
  jdata : List (List String)
  fields : List FieldDesc
  deriving DecidableEq, Repr

/-- The `content['data']` dict: the four content keys `_fetch_result`
probes, each optional.  Row cells are modelled as their JSON-rendered
strings. -/
structure LivyData where
  table : Option TableData
  imagePng : Option String
  appJson : Option JsonResult
  textPlain : Option String
  deriving DecidableEq, Repr

/-- `response['output']`: declared status plus the fields used by the
success and error branches. -/
structure FetchOutput where
  status : String
  odata : Option LivyData
  traceback : Option (List String)
  ename : Option String
  evalue : Option String
  deriving DecidableEq, Repr

/-- A `fetch_data` response (only `output` is read by `_fetch_result`). -/
structure FetchResponse where
  output : FetchOutput
  deriving DecidableEq, Repr

/-- One column of the normalized `meta` (`{name, type, comment}`). -/
structure MetaCol where
  name : String
  ctype : String
  comment : String
  deriving DecidableEq, Repr

/-- The normalized result returned by `_fetch_result`:
`{'data': ..., 'images': ..., 'meta': ..., 'type': ...}`. -/
structure ResultPayload where
  data : List (List String)
  images : List String
  meta : List MetaCol
  rtype : String
  deriving DecidableEq, Repr

/-- Errors escaping `_fetch_result`: the `SessionExpired`
reclassification of the fetch call, any other fetch exception re-raised
unchanged, the `QueryError` of the error branch, and the uncaught
`KeyError` the code would hit when an expected content key is absent. -/
inductive FetchErr where
  | sessionExpired (msg : String)
  | propagated (msg : String)
  | queryError (msg : String)
  | keyError
  deriving DecidableEq, Repr

/-- The error-branch message: `''.join(traceback)` when a non-empty
traceback is present, else `ename` (default `'unknown error'`),
extended with `': ' + evalue` when `evalue` is present. -/
def enameMsg (content : FetchOutput) : String :=
  let msg := content.ename.getD "unknown error"
  match content.evalue with
  | some ev => msg ++ ": " ++ ev
  | none => msg

/-- `SparkApi._fetch_result` (lines 246-307): fetch (with the
session-not-found reclassification), then normalize an `ok` payload by
probing the content keys in priority order — Livy table, PNG image,
`application/json`, plain text — and force `data = []` when
`start_over` is false; an `error` status raises `QueryError`; any other
status returns `None`. -/
def fetch_result (fetchRes : Except String FetchResponse) (start_over : Bool) :
    Except FetchErr (Option ResultPayload) :=
  match fetchRes with
  | Except.error e =>
    if sessGoneSearch (pyLower e) then Except.error (FetchErr.sessionExpired e)
    else Except.error (FetchErr.propagated e)
  | Except.ok resp =>
    let content := resp.output
    if content.status = "ok" then
      match content.odata with
      | none => Except.error FetchErr.keyError
      | some d =>
        let branch : Except FetchErr (List (List String) × List String × List MetaCol × String) :=
          match d.table with
          | some table =>
            Except.ok (table.data, [],
              table.headers.map (fun h => { name := h.name, ctype := h.ftype, comment := "" }),
              "table")
          | none =>
            let images := match d.imagePng with | some i => [i] | none => []
            match d.appJson with
            | some result =>
              Except.ok (result.jdata, images,
                result.fields.map (fun f => { name := f.name, ctype := f.ftype, comment := "" }),
                "table")
            | none =>
              match d.textPlain with
              | some t =>
                Except.ok ([[t]], images,
                  [{ name := "Header", ctype := "STRING_TYPE", comment := "" }], "text")
              | none => Except.error FetchErr.keyError
        match branch with
        | Except.error er => Except.error er
        | Except.ok (data, images, meta, ty) =>
          let data := if start_over then data else []
          Except.ok (some { data := data, images := images, meta := meta, rtype := ty })
    else if content.status = "error" then
      let msg :=
        match content.traceback with
        | none => enameMsg content
        | some [] => enameMsg content
        | some tb => String.join tb
      Except.error (FetchErr.queryError msg)
    else Except.ok none

/-! ## Session lifecycle (`_check_session`, `create_session`) -/

/-- A `get_session` response: the remote state and the session log. -/
structure RemoteStatus where
  state : SessState
  log : List String
  deriving DecidableEq, Repr

/-- The session-info dict persisted per user:
`{'type': lang, 'id': response['id'], 'properties': ...}`. -/
structure StoredSession where
  typ : String
  id : Nat
  properties : List ConfProp
  deriving DecidableEq, Repr

/-- The unhealthy states rejected by `_check_session` (line 133). -/
def badStates : List SessState :=
  [SessState.dead, SessState.shutting_down, SessState.error, SessState.killed]

/-- `SparkApi._check_session` (lines 123-134): `remoteGet` is the
outcome of `api.get_session(session['id'])` (`none` when the call
raised).  Returns the remote session when it is present and healthy,
`None` otherwise. -/
def check_session (remoteGet : Option RemoteStatus) : Option RemoteStatus :=
  match remoteGet with
  | some r => if r.state ∈ badStates then none else some r
  | none => none

/-- The creation polling loop of `create_session` (lines 155-161),
translated with fuel `120 - count`: starting from the pre-loop
`get_session` result, re-fetch while the state is `starting` and
`count < 120`, returning the last observed status and the final
`count` (the number of loop iterations).  `get n` is the result of the
`n`-th `get_session` call (`get 0` is the pre-loop fetch). -/
def pollLoopAux (get : Nat → RemoteStatus) (status : RemoteStatus) (count fuel : Nat) :
    RemoteStatus × Nat :=
  match fuel with
  | 0 => (status, count)
  | f + 1 =>
    if status.state = SessState.starting then
      pollLoopAux get (get (count + 1)) (count + 1) f
    else (status, count)

/-- The whole `status = api.get_session(...); count = 0; while ...` block:
fuel 120 makes `count < 120` the loop guard. -/
def createPoll (get : Nat → RemoteStatus) : RemoteStatus × Nat :=
  pollLoopAux get (get 0) 0 120

/-- The `QueryError` message raised when the polled session never
reaches `idle` (lines 163-165). -/
def creationError (st : RemoteStatus) : String :=
  let info := if st.log ≠ [] then String.intercalate "\n" st.log else "timeout"
  "The Spark session is " ++ stateStr st.state ++
    " and could not be created in the cluster: " ++ info

/-- Python truthiness of the `properties` argument (`not properties`):
`None` and the empty list are falsy. -/
def pyFalsyProps : Option (List PEntry) → Bool
  | none => true
  | some [] => true
  | some (_ :: _) => false

/-- Lines 146-149: a falsy `properties` argument is replaced by the
user's default configuration when one is available (`defaultConfig`
models the `USE_DEFAULT_CONFIGURATION` lookup, `none` when the option
is disabled or no user configuration exists). -/
def resolveProps (properties defaultConfig : Option (List PEntry)) : Option (List PEntry) :=
  if pyFalsyProps properties then
    match defaultConfig with
    | some l => some l
    | none => properties
  else properties

/-- The session-creation path of `create_session` (lines 146-174):
resolve the effective properties, build the Livy properties, submit the
create request (the service answers with id `createdId`), poll while
the session is `starting`, and either fail with the `QueryError` or
persist and return the new session info. -/
def create_session_new (lang : String) (properties : Option (List PEntry))
    (defaultConfig : Option (List PEntry)) (createdId : Nat) (get : Nat → RemoteStatus) :
    Except String StoredSession :=
  match get_livy_props lang (resolveProps properties defaultConfig) with
  | Except.error _ => Except.error "TypeError"
  | Except.ok props =>
    if (createPoll get).1.state ≠ SessState.idle then
      Except.error (creationError (createPoll get).1)
    else Except.ok { typ := lang, id := createdId, properties := to_properties (some props) }

/-- `SparkApi.create_session` (lines 137-174): `stored` is the user's
persisted session record, `storedCheck` the `get_session` result for
its id (the input `_check_session` works on).  A stored session is
returned as-is when the fresh check passes; otherwise a new session is
created via `create_session_new`. -/
def create_session (stored : Option StoredSession) (storedCheck : Option RemoteStatus)
    (lang : String) (properties : Option (List PEntry)) (defaultConfig : Option (List PEntry))
    (createdId : Nat) (get : Nat → RemoteStatus) : Except String StoredSession :=
  match stored with
  | some s =>
    match check_session storedCheck with
    | some _ => Except.ok s
    | none => create_session_new lang properties defaultConfig createdId get
  | none => create_session_new lang properties defaultConfig createdId get

/-! ## Closing sessions (`close_session`, `_close_unused_sessions`) -/

/-- Outcomes of the remote `api.close(session['id'])` call. -/
inductive RemoteCloseRes where
  | success
  | restErr (code : Nat)
  | otherErr (msg : String)
  deriving DecidableEq, Repr

/-- What `close_session` does for the caller: `ok i` is
`{'session': i, 'status': 0}`, `noSession` is the `{'status': -1}`
early return for a `None` id, `sessionExpired` the raised
`SessionExpired`, `propagated` an uncaught exception, and `fellThrough`
the implicit `None` return after a swallowed `RestException` whose code
is neither 404 nor 500. -/
inductive CloseOutcome where
  | ok (sessionId : Nat)
  | noSession
  | sessionExpired
  | propagated (msg : String)
  | fellThrough
  deriving DecidableEq, Repr

/-- Observable effects of `close_session`, in order: the remote close
call, the session-store read in the `finally` block, and the
session-store removal. -/
inductive CloseEff where
  | remoteClose (id : Nat)
  | storeRead
  | storeDelete
  deriving DecidableEq, Repr

/-- Does the stored record match the closed id
(`stored_session_info and session['id'] == stored_session_info['id']`)? -/
def storedMatches (stored : Option StoredSession) (i : Nat) : Bool :=
  match stored with
  | some st => st.id = i
  | none => false

/-- `SparkApi.close_session` (lines 355-373): with a `None` id, return
`{'status': -1}` touching nothing.  Otherwise call the remote close;
a 404 or 500 `RestException` becomes `SessionExpired`, any other
`RestException` is swallowed (the function then returns `None`), other
exceptions propagate; in every one of those cases the `finally` block
reads the stored record and deletes it exactly when its id equals the
closed id.  Returns the outcome, the resulting stored record, and the
effect trace. -/
def close_session (sessId : Option Nat) (remote : RemoteCloseRes)
    (stored : Option StoredSession) :
    CloseOutcome × Option StoredSession × List CloseEff :=
  match sessId with
  | none => (CloseOutcome.noSession, stored, [])
  | some i =>
    let m := storedMatches stored i
    let stored' := if m then none else stored
    let effs := [CloseEff.remoteClose i, CloseEff.storeRead] ++
      (if m then [CloseEff.storeDelete] else [])
    match remote with
    | RemoteCloseRes.success => (CloseOutcome.ok i, stored', effs)
    | RemoteCloseRes.restErr c =>
      if c = 404 ∨ c = 500 then (CloseOutcome.sessionExpired, stored', effs)
      else (CloseOutcome.fellThrough, stored', effs)
    | RemoteCloseRes.otherErr msg => (CloseOutcome.propagated msg, stored', effs)

/-- One entry of the `api.get_sessions()` listing. -/
structure LivySessionEntry where
  id : Nat
  owner : String
  state : SessState
  deriving DecidableEq, Repr

/-- Errors escaping `_close_unused_sessions`: the `SessionExpired`
raised by `close_session` on a 404/500 close response, an uncaught
exception from the close call, and the `TypeError` the code would hit
indexing a `None` stored record. -/
inductive SweepErr where
  | expired
  | propagated (msg : String)
  | storedMissing
  deriving DecidableEq, Repr

/-- The states swept by `_close_unused_sessions` (line 437). -/
def reapStates : List SessState :=
  [SessState.idle, SessState.shutting_down, SessState.error, SessState.dead, SessState.killed]

/-- The filter on line 436: owned by the user, different from the
stored session's id, and in a reapable state. -/
def shouldReap (username : String) (storedId : Nat) (s : LivySessionEntry) : Bool :=
  s.owner = username && s.id ≠ storedId && s.state ∈ reapStates

/-- The `for session in all_sessions['sessions']` loop of
`_close_unused_sessions`: close every matching session via
`close_session` (threading the stored record through), stopping with
an error as soon as a close raises.  Returns the ids the loop called
`close_session` on, plus the final stored record. -/
def sweepLoop (username : String) (storedId : Nat) (closeRes : Nat → RemoteCloseRes)
    (stored : Option StoredSession) :
    List LivySessionEntry → Except SweepErr (List Nat × Option StoredSession)
  | [] => Except.ok ([], stored)
  | s :: rest =>
    if shouldReap username storedId s then
      let r := close_session (some s.id) (closeRes s.id) stored
      match r.1 with
      | CloseOutcome.sessionExpired => Except.error SweepErr.expired
      | CloseOutcome.propagated msg => Except.error (SweepErr.propagated msg)
      | _ =>
        match sweepLoop username storedId closeRes r.2.1 rest with
        | Except.ok (ids, st) => Except.ok (s.id :: ids, st)
        | Except.error er => Except.error er
    else sweepLoop username storedId closeRes stored rest

/-- `SparkApi._close_unused_sessions` (lines 420-438): `enumRes` is the
`api.get_sessions()` outcome (`none` when it raised — logged and
swallowed, leaving `all_sessions` falsy).  With a session list in hand
the code reads the stored record and sweeps; indexing a `None` stored
record raises `TypeError` at the first session owned by the user. -/
def close_unused_sessions (enumRes : Option (List LivySessionEntry)) (username : String)
    (stored : Option StoredSession) (closeRes : Nat → RemoteCloseRes) :
    Except SweepErr (List Nat × Option StoredSession) :=
  match enumRes with
  | none => Except.ok ([], stored)
  | some sessions =>
    match stored with
    | none =>
      if sessions.any (fun s => s.owner = username) then Except.error SweepErr.storedMissing
      else Except.ok ([], none)
    | some st => sweepLoop username st.id closeRes (some st) sessions

/-! ## Statement status polling (`_check_status_and_fetch_result`) -/

/-- The polling loop of `_check_status_and_fetch_result` (lines
444-448), fuel-translated like `createPoll`: re-fetch while the state
is `running` or `waiting` and `count < 120`.  `fetchState n` is the
`state` field of the `n`-th `fetch_data` response (`fetchState 0` is
the pre-loop fetch). -/
def statusPollAux (fetchState : Nat → String) (st : String) (count fuel : Nat) :
    String × Nat :=
  match fuel with
  | 0 => (st, count)
  | f + 1 =>
    if st ∈ (["running", "waiting"] : List String) then
      statusPollAux fetchState (fetchState (count + 1)) (count + 1) f
    else (st, count)

/-- The whole status-polling block with its `count < 120` guard. -/
def statusPoll (fetchState : Nat → String) : String × Nat :=
  statusPollAux fetchState (fetchState 0) 0 120

/-- `SparkApi._check_status_and_fetch_result` (lines 441-451): poll the
statement state, then fetch and normalize the result (with
`start_over=True`) only when the final state is `available`; any other
final state returns `None`. -/
def check_status_and_fetch_result (fetchState : Nat → String)
    (finalFetch : Except String FetchResponse) : Except FetchErr (Option ResultPayload) :=
  if (statusPoll fetchState).1 = "available" then fetch_result finalFetch true
  else Except.ok none

/-! ## Standalone log job extraction (`_get_standalone_jobs`) -/

/-- The character class `[0-9a-zA-Z-_\.]` of `SPARK_UI_RE`. -/
def hostChar (c : Char) : Bool :=
  c.isAlphanum || c = '-' || c = '_' || c = '.'

/-- `SPARK_UI_RE` (`Started SparkUI at (http[s]?://([0-9a-zA-Z-_\.]+):(\d+))`)
matched at the head of `s`, returning group 1 — the URL — on success. -/
def sparkUIAt (s : List Char) : Option String :=
  match stripLit "Started SparkUI at http".toList s with
  | none => none
  | some r =>
    let (sPart, r2) :=
      match r with
      | 's' :: rr => ("s", rr)
      | _ => ("", r)
    match stripLit "://".toList r2 with
    | none => none
    | some r3 =>
      let host := r3.takeWhile hostChar
      if host.isEmpty then none
      else
        match r3.drop host.length with
        | ':' :: r4 =>
          let port := r4.takeWhile Char.isDigit
          if port.isEmpty then none
          else some ("http" ++ sPart ++ "://" ++ String.mk host ++ ":" ++ String.mk port)
        | _ => none

/-- `SPARK_UI_RE.search(logs)`: leftmost match. -/
def sparkUISearch : List Char → Option String
  | [] => none
  | s@(_ :: cs) =>
    match sparkUIAt s with
    | some u => some u
    | none => sparkUISearch cs

/-- `STANDALONE_JOB_RE` (`Got job (\d+)`) matched at the head of `s`:
the digit group and the rest of the input after the match. -/
def gotJobAt (s : List Char) : Option (String × List Char) :=
  match stripLit "Got job ".toList s with
  | none => none
  | some r =>
    let ds := r.takeWhile Char.isDigit
    if ds.isEmpty then none else some (String.mk ds, r.drop ds.length)

/-- `STANDALONE_JOB_RE.finditer(logs)` digit groups: scan left to right,
emitting each non-overlapping match and continuing after it.  The fuel
equals the input length; every step consumes at least one character,
so it never runs out. -/
def findJobIdsAux : Nat → List Char → List String
  | 0, _ => []
  | _ + 1, [] => []
  | fuel + 1, c :: cs =>
    match gotJobAt (c :: cs) with
    | some (ds, rest) => ds :: findJobIdsAux fuel rest
    | none => findJobIdsAux fuel cs

/-- All `Got job <n>` group-1 strings of the log text, in match order. -/
def findJobIds (s : List Char) : List String := findJobIdsAux s.length s

/-- First-occurrence deduplication, modelling the `job_ids` set of
`_get_standalone_jobs` (CPython set iteration order is unspecified;
the model fixes insertion order — the claims only count entries). -/
def dedupSeen (seen : List String) : List String → List String
  | [] => []
  | x :: xs =>
    if x ∈ seen then dedupSeen seen xs
    else x :: dedupSeen (x :: seen) xs

/-- One `{'name': job_id, 'url': ...}` entry of the jobs list. -/
structure JobEntry where
  name : String
  url : String
  deriving DecidableEq, Repr

/-- `SparkApi._get_standalone_jobs` (lines 540-562): find the Spark UI
URL (warning and empty list when absent — the boolean result is the
warning flag), then one entry per distinct job id with URL
`<ui_url>/jobs/job/?id=<n>`. -/
def get_standalone_jobs (logs : String) : List JobEntry × Bool :=
  match sparkUISearch logs.toList with
  | none => ([], true)
  | some u =>
    let ids := dedupSeen [] (findJobIds logs.toList)
    (ids.map (fun j => { name := j, url := u ++ "/jobs/job/?id=" ++ j }), false)

/-! ## General lemmas about the polling loops -/

/-- The creation poll performs at most `fuel` further iterations. -/
theorem pollLoopAux_count_le (get : Nat → RemoteStatus) :
    ∀ fuel st count, (pollLoopAux get st count fuel).2 ≤ count + fuel := by
  intro fuel
  induction fuel with
  | zero => intro st count; simp [pollLoopAux]
  | succ f ih =>
    intro st count
    simp only [pollLoopAux]
    split
    · exact le_trans (ih _ _) (by omega)
    · omega

/-- If the creation poll still reports `starting`, it ran out of fuel:
the loop only stops early on a non-`starting` state. -/
theorem pollLoopAux_starting (get : Nat → RemoteStatus) :
    ∀ fuel st count, (pollLoopAux get st count fuel).1.state = SessState.starting →
      (pollLoopAux get st count fuel).2 = count + fuel := by
  intro fuel
  induction fuel with
  | zero => intro st count _; simp [pollLoopAux]
  | succ f ih =>
    intro st count h
    simp only [pollLoopAux] at h ⊢
    by_cases hst : st.state = SessState.starting
    · rw [if_pos hst] at h ⊢
      rw [ih _ _ h]; omega
    · rw [if_neg hst] at h
      exact absurd h hst

/-- The statement-status poll performs at most `fuel` further iterations. -/
theorem statusPollAux_count_le (fetchState : Nat → String) :
    ∀ fuel st count, (statusPollAux fetchState st count fuel).2 ≤ count + fuel := by
  intro fuel
  induction fuel with
  | zero => intro st count; simp [statusPollAux]
  | succ f ih =>
    intro st count
    simp only [statusPollAux]
    split
    · exact le_trans (ih _ _) (by omega)
    · omega

/-- If the statement-status poll still reports a continue state, it ran
out of fuel. -/
theorem statusPollAux_running (fetchState : Nat → String) :
    ∀ fuel st count,
      (statusPollAux fetchState st count fuel).1 ∈ (["running", "waiting"] : List String) →
      (statusPollAux fetchState st count fuel).2 = count + fuel := by
  intro fuel
  induction fuel with
  | zero => intro st count _; simp [statusPollAux]
  | succ f ih =>
    intro st count h
    simp only [statusPollAux] at h ⊢
    by_cases hst : st ∈ (["running", "waiting"] : List String)
    · rw [if_pos hst] at h ⊢
      rw [ih _ _ h]; omega
    · rw [if_neg hst] at h
      exact absurd h hst

/-- `check_session` accepts only a session whose fresh remote state is
outside the unhealthy set. -/
theorem check_session_eq_some {sc : Option RemoteStatus} {r : RemoteStatus}
    (h : check_session sc = some r) : sc = some r ∧ r.state ∉ badStates := by
  cases sc with
  | none => simp [check_session] at h
  | some r0 =>
    simp only [check_session] at h
    split at h
    · exact absurd h (by simp)
    · cases h
      exact ⟨rfl, by assumption⟩

/-- The creation path only succeeds when the final polled state is
`idle`, and then hands back the freshly created id. -/
theorem create_session_new_ok {lang : String} {properties defaultConfig : Option (List PEntry)}
    {createdId : Nat} {get : Nat → RemoteStatus} {s : StoredSession}
    (h : create_session_new lang properties defaultConfig createdId get = Except.ok s) :
    s.id = createdId ∧ (createPoll get).1.state = SessState.idle := by
  unfold create_session_new at h
  split at h
  · exact absurd h (by simp)
  · split at h
    · exact absurd h (by simp)
    · rename_i hst
      cases h
      exact ⟨rfl, by simpa using hst⟩

/-- The default (`properties=None`) Livy properties dict after the merge,
csv coercion and conf conversion, before `kind` is set: only `conf`
differs from the raw defaults (its empty list became an empty dict). -/
def livyDefaultsReady : List (String × PVal) :=
  [("conf", PVal.confDict []), ("jars", PVal.strList []), ("files", PVal.strList []),
   ("pyFiles", PVal.strList []), ("driverMemory", PVal.str "1G"), ("driverCores", PVal.num 1),
   ("executorMemory", PVal.str "1G"), ("executorCores", PVal.num 1), ("queue", PVal.str "default"),
   ("archives", PVal.strList [])]

/-- With no caller properties, `get_livy_props` succeeds and returns the
defaults with `kind` appended. -/
theorem get_livy_props_defaults (lang : String) :
    get_livy_props lang none =
      Except.ok (dset livyDefaultsReady "kind"
        (PVal.str (if lang = "sparksql" then "sql" else lang))) := rfl

/-- Claim C1: `create_session` never returns a session whose most
recently observed remote state is dead, shutting_down, error or killed:
a stored session is returned only when the fresh `_check_session` state
check passes, and a new session is returned only when the polled state
was observed to be `idle`. -/
theorem create_session_returns_live (stored : Option StoredSession)
    (storedCheck : Option RemoteStatus) (lang : String)
    (properties defaultConfig : Option (List PEntry)) (createdId : Nat)
    (get : Nat → RemoteStatus) (s : StoredSession)
    (h : create_session stored storedCheck lang properties defaultConfig createdId get =
      Except.ok s) :
    (stored = some s ∧ ∃ r, storedCheck = some r ∧ r.state ∉ badStates) ∨
    (s.id = createdId ∧ (createPoll get).1.state = SessState.idle) := by
  cases stored with
  | none =>
    unfold create_session at h
    exact Or.inr (create_session_new_ok h)
  | some s0 =>
    unfold create_session at h
    cases hc : check_session storedCheck with
    | some r =>
      rw [hc] at h
      simp only [] at h
      cases h
      rcases check_session_eq_some hc with ⟨hsc, hbad⟩
      exact Or.inl ⟨rfl, r, hsc, hbad⟩
    | none =>
      rw [hc] at h
      simp only [] at h
      exact Or.inr (create_session_new_ok h)

/-- Witness for C1: a stored session whose fresh check reports `idle`
is returned as stored, with the checked state outside the unhealthy
set. -/
theorem create_session_returns_live_witness :
    ((some { typ := "scala", id := 5, properties := [] } : Option StoredSession) =
        some { typ := "scala", id := 5, properties := ([] : List ConfProp) } ∧
      ∃ r, (some { state := SessState.idle, log := [] } : Option RemoteStatus) = some r ∧
        r.state ∉ badStates) ∨
    (({ typ := "scala", id := 5, properties := ([] : List ConfProp) } : StoredSession).id = 9 ∧
      (createPoll (fun _ => { state := SessState.dead, log := [] })).1.state =
        SessState.idle) :=
  create_session_returns_live (some { typ := "scala", id := 5, properties := [] })
    (some { state := SessState.idle, log := [] }) "scala" none none 9
    (fun _ => { state := SessState.dead, log := [] })
    { typ := "scala", id := 5, properties := [] } rfl

/-- Claim C2: session creation polls `get_session` only while the state
is `starting`, for at most 120 polling iterations (a still-`starting`
result means the 120-iteration cap was hit); on the remote sequence
[starting, starting, idle] it succeeds after exactly 2 polling
iterations and returns the new idle session; and a non-`idle` final
state raises the fatal creation `QueryError` built from the
service-reported log.  The 1-second sleep between polls is not
modelled. -/
theorem create_session_polling (get : Nat → RemoteStatus) :
    ((createPoll get).2 ≤ 120) ∧
    ((createPoll get).1.state = SessState.starting → (createPoll get).2 = 120) ∧
    (∀ lang cid, (createPoll get).1.state ≠ SessState.idle →
      create_session none none lang none none cid get =
        Except.error (creationError (createPoll get).1)) ∧
    (get = (fun n => if n < 2 then ⟨SessState.starting, []⟩ else ⟨SessState.idle, []⟩) →
      createPoll get = (⟨SessState.idle, []⟩, 2) ∧
      ∀ cid, ∃ ps, create_session none none "scala" none none cid get =
        Except.ok { typ := "scala", id := cid, properties := ps }) := by
  refine ⟨?_, ?_, ?_, ?_⟩
  · simpa using pollLoopAux_count_le get 120 (get 0) 0
  · intro h
    simpa using pollLoopAux_starting get 120 (get 0) 0 h
  · intro lang cid h
    show create_session_new lang none none cid get = _
    have hr : resolveProps none none = none := rfl
    simp only [create_session_new, hr, get_livy_props_defaults]
    rw [if_pos h]
  · rintro rfl
    exact ⟨by decide, fun cid => ⟨_, rfl⟩⟩

/-- Witness for C2: the [starting, starting, idle] scenario, creation
succeeding with the supplied id after 2 iterations, and the error path
on an all-`dead` remote. -/
theorem create_session_polling_witness :
    (createPoll (fun n => if n < 2 then ⟨SessState.starting, []⟩ else ⟨SessState.idle, []⟩) =
      (⟨SessState.idle, []⟩, 2) ∧
     ∃ ps, create_session none none "scala" none none 42
        (fun n => if n < 2 then ⟨SessState.starting, []⟩ else ⟨SessState.idle, []⟩) =
      Except.ok { typ := "scala", id := 42, properties := ps }) ∧
    create_session none none "scala" none none 42
        (fun _ => ⟨SessState.dead, ["the session is dead"]⟩) =
      Except.error (creationError
        (createPoll (fun _ => ⟨SessState.dead, ["the session is dead"]⟩)).1) := by
  constructor
  · have h := (create_session_polling
      (fun n => if n < 2 then ⟨SessState.starting, []⟩ else ⟨SessState.idle, []⟩)).2.2.2 rfl
    exact ⟨h.1, h.2 42⟩
  · exact (create_session_polling (fun _ => ⟨SessState.dead, ["the session is dead"]⟩)).2.2.1
      "scala" 42 (by decide)

/-- Claim C4: the status-polling loop of
`_check_status_and_fetch_result` runs at most 120 iterations whatever
the remote states are, continues only while the fetched state is
`running` or `waiting` (a final continue-state means the cap was hit),
and on a mock service reporting `running` for the first 5 fetches and
then `available` it stops after the 6th fetch (5 loop iterations) with
the `available` status; the result is then fetched exactly when the
final state is `available`. -/
theorem poll_until_done_spec (fetchState : Nat → String) :
    ((statusPoll fetchState).2 ≤ 120) ∧
    ((statusPoll fetchState).1 ∈ (["running", "waiting"] : List String) →
      (statusPoll fetchState).2 = 120) ∧
    (fetchState = (fun n => if n < 5 then "running" else "available") →
      statusPoll fetchState = ("available", 5)) ∧
    (∀ finalFetch, (statusPoll fetchState).1 ≠ "available" →
      check_status_and_fetch_result fetchState finalFetch = Except.ok none) ∧
    (∀ finalFetch, (statusPoll fetchState).1 = "available" →
      check_status_and_fetch_result fetchState finalFetch = fetch_result finalFetch true) := by
  refine ⟨?_, ?_, ?_, ?_, ?_⟩
  · simpa using statusPollAux_count_le fetchState 120 (fetchState 0) 0
  · intro h
    simpa using statusPollAux_running fetchState 120 (fetchState 0) 0 h
  · rintro rfl
    decide
  · intro finalFetch h
    unfold check_status_and_fetch_result
    rw [if_neg h]
  · intro finalFetch h
    unfold check_status_and_fetch_result
    rw [if_pos h]

/-- Witness for C4: the 5-times-`running`-then-`available` mock. -/
theorem poll_until_done_witness :
    statusPoll (fun n => if n < 5 then "running" else "available") = ("available", 5) ∧
    (statusPoll (fun n => if n < 5 then "running" else "available")).2 ≤ 120 := by
  constructor
  · exact (poll_until_done_spec (fun n => if n < 5 then "running" else "available")).2.2.1 rfl
  · exact (poll_until_done_spec (fun n => if n < 5 then "running" else "available")).1

/-- Claim C5: whenever `_fetch_result` called with `start_over=False`
returns a payload (which only happens on a successful `ok` status), the
payload's row sequence is empty, whatever the content was — table,
json, image or plain text. -/
theorem fetch_result_rows_empty (fetchRes : Except String FetchResponse) (p : ResultPayload)
    (h : fetch_result fetchRes false = Except.ok (some p)) : p.data = [] := by
  cases fetchRes with
  | error e =>
    simp only [fetch_result] at h
    split at h <;> simp at h
  | ok resp =>
    simp only [fetch_result] at h
    split at h
    · split at h
      · simp at h
      · split at h
        · simp at h
        · cases h
          simp
    · split at h
      · simp at h
      · simp at h

/-- Witness for C5: a table payload fetched with `start_over=False`
comes back with empty rows. -/
theorem fetch_result_rows_empty_witness :
    ({ data := [], images := [],
       meta := [{ name := "col", ctype := "INT_TYPE", comment := "" }],
       rtype := "table" } : ResultPayload).data = ([] : List (List String)) :=
  fetch_result_rows_empty
    (Except.ok (FetchResponse.mk
      (FetchOutput.mk "ok"
        (some (LivyData.mk
          (some (TableData.mk [["1"], ["2"]] [FieldDesc.mk "col" "INT_TYPE"]))
          none none none))
        none none none)))
    { data := [], images := [],
      meta := [{ name := "col", ctype := "INT_TYPE", comment := "" }], rtype := "table" }
    rfl

/-- Claim C6: `close_session` on an id whose remote close answers 404
(or 500) raises `SessionExpired` rather than a hard failure, and — on
the expired path exactly as on the successful path — removes the
stored record if and only if its id equals the closed session's id. -/
theorem close_session_expired_spec (i : Nat) (stored : Option StoredSession) (c : Nat)
    (h : c = 404 ∨ c = 500) :
    ((close_session (some i) (RemoteCloseRes.restErr c) stored).1 =
      CloseOutcome.sessionExpired) ∧
    ((close_session (some i) (RemoteCloseRes.restErr c) stored).2.1 =
      if storedMatches stored i then none else stored) ∧
    ((close_session (some i) RemoteCloseRes.success stored).1 = CloseOutcome.ok i) ∧
    ((close_session (some i) RemoteCloseRes.success stored).2.1 =
      if storedMatches stored i then none else stored) ∧
    (∀ st, stored = some st →
      (((close_session (some i) (RemoteCloseRes.restErr c) stored).2.1 = none) ↔
        st.id = i)) := by
  refine ⟨?_, ?_, rfl, rfl, ?_⟩
  · simp only [close_session]
    rw [if_pos h]
  · simp only [close_session]
    rw [if_pos h]
  · rintro st rfl
    simp only [close_session]
    rw [if_pos h]
    by_cases hid : st.id = i
    · simp [storedMatches, hid]
    · simp [storedMatches, hid]

/-- Witness for C6: closing id 3 with a 404 response while id 3 is
stored expires the session and clears the store. -/
theorem close_session_expired_witness :
    ((close_session (some 3) (RemoteCloseRes.restErr 404)
        (some { typ := "scala", id := 3, properties := [] })).1 =
      CloseOutcome.sessionExpired) ∧
    ((close_session (some 3) (RemoteCloseRes.restErr 404)
        (some { typ := "scala", id := 3, properties := [] })).2.1 =
      if storedMatches (some { typ := "scala", id := 3, properties := [] }) 3 then none
      else some { typ := "scala", id := 3, properties := [] }) := by
  have h := close_session_expired_spec 3 (some { typ := "scala", id := 3, properties := [] })
    404 (Or.inl rfl)
  exact ⟨h.1, h.2.1⟩

/-- Claim C10: `close_session` on a record with a `None` id returns
`{'status': -1}` immediately: no remote call is issued and the session
store is neither read nor modified (the effect trace is empty and the
store is returned unchanged). -/
theorem close_session_none_id (remote : RemoteCloseRes) (stored : Option StoredSession) :
    close_session none remote stored = (CloseOutcome.noSession, stored, []) := rfl

/-- Claim C9: standalone-mode job extraction returns the empty list and
logs a warning when no `Started SparkUI at <url>` line is found; and
when a UI URL is found and the distinct `Got job <n>` numbers are
exactly `n1` and `n2`, it returns exactly two entries, each named by
its job number with URL `<ui_url>/jobs/job/?id=<n>`. -/
theorem standalone_jobs_spec (logs : String) :
    (sparkUISearch logs.toList = none → get_standalone_jobs logs = ([], true)) ∧
    (∀ u n1 n2, sparkUISearch logs.toList = some u →
      dedupSeen [] (findJobIds logs.toList) = [n1, n2] →
      get_standalone_jobs logs =
        ([{ name := n1, url := u ++ "/jobs/job/?id=" ++ n1 },
          { name := n2, url := u ++ "/jobs/job/?id=" ++ n2 }], false)) := by
  constructor
  · intro h
    unfold get_standalone_jobs
    rw [h]
  · intro u n1 n2 h hd
    unfold get_standalone_jobs
    rw [h]
    simp only []
    rw [hd]
    rfl

/-- Witness for C9: a log with one UI line and jobs 0, 1, 0 yields the
two entries for jobs 0 and 1; a log with no UI line yields nothing and
the warning. -/
theorem standalone_jobs_witness :
    get_standalone_jobs
        "INFO Started SparkUI at http://10.0.0.1:4040\nINFO Got job 0\nINFO Got job 1\nINFO Got job 0" =
      ([{ name := "0", url := "http://10.0.0.1:4040/jobs/job/?id=0" },
        { name := "1", url := "http://10.0.0.1:4040/jobs/job/?id=1" }], false) ∧
    get_standalone_jobs "INFO no ui line here, Got job 4" = ([], true) := by
  constructor
  · exact (standalone_jobs_spec _).2 "http://10.0.0.1:4040" "0" "1" (by decide) (by decide)
  · exact (standalone_jobs_spec _).1 (by decide)

/-! ## Dict lemmas for the property merge -/

/-- Lookup after assignment: the assigned key reads back the new value,
every other key is untouched. -/
theorem dget_dset (d : List (String × PVal)) (k : String) (v : PVal) (n : String) :
    dget (dset d k v) n = if k = n then some v else dget d n := by
  induction d with
  | nil => simp [dset, dget]
  | cons p d ih =>
    obtain ⟨p1, p2⟩ := p
    by_cases hpk : p1 = k <;> by_cases hkn : k = n <;>
      simp_all [dset, dget]

/-- The value of the last entry of `l` carrying key `k`, if any: the
value `dict(l)` gives `k`. -/
def lastVal : List (String × PVal) → String → Option PVal
  | [], _ => none
  | p :: l, k => (lastVal l k).orElse (fun _ => if p.1 = k then some p.2 else none)

/-- Folding assignments over a dict: each key reads the last assigned
value if one exists, else whatever the initial dict held. -/
theorem dget_foldl_dset (l : List (String × PVal)) :
    ∀ d n, dget (l.foldl (fun acc p => dset acc p.1 p.2) d) n =
      (lastVal l n).orElse (fun _ => dget d n) := by
  induction l with
  | nil => intro d n; simp [lastVal, Option.orElse]
  | cons p l ih =>
    intro d n
    simp only [List.foldl_cons, lastVal]
    rw [ih, dget_dset]
    cases hl : lastVal l n with
    | some x => simp [Option.orElse]
    | none =>
      by_cases hpn : p.1 = n <;> simp [Option.orElse, hpn]

/-- A key absent from a pair list has no last value. -/
theorem lastVal_eq_none (l : List (String × PVal)) (n : String) (h : n ∉ dkeys l) :
    lastVal l n = none := by
  induction l with
  | nil => rfl
  | cons p l ih =>
    simp only [dkeys, List.map_cons, List.mem_cons, not_or] at h
    rw [lastVal, ih (by simpa [dkeys] using h.2)]
    simp only [Option.orElse]
    rw [if_neg (fun hq => h.1 hq.symm)]

/-- On a dict with distinct keys, first and last occurrence coincide. -/
theorem lastVal_eq_dget_of_nodup (l : List (String × PVal)) (n : String)
    (h : (dkeys l).Nodup) : lastVal l n = dget l n := by
  induction l with
  | nil => rfl
  | cons p l ih =>
    simp only [dkeys, List.map_cons, List.nodup_cons] at h
    by_cases hpn : p.1 = n
    · have hnl : n ∉ dkeys l := by
        rw [← hpn]; simpa [dkeys] using h.1
      rw [lastVal, dget, if_pos hpn, lastVal_eq_none l n hnl]
      simp [Option.orElse, hpn]
    · rw [lastVal, dget, if_neg hpn, ih h.2]
      cases dget l n <;> simp [Option.orElse, hpn]

/-- Membership survives an assignment. -/
theorem dmem_dset_of (d : List (String × PVal)) (k : String) (v : PVal) (n : String)
    (h : dmem d n = true) : dmem (dset d k v) n = true := by
  simp only [dmem, dget_dset] at h ⊢
  by_cases hkn : k = n <;> simp [hkn, h]

/-- Membership is membership in the key sequence. -/
theorem dmem_iff_mem (d : List (String × PVal)) (k : String) :
    dmem d k = true ↔ k ∈ dkeys d := by
  induction d with
  | nil => simp [dmem, dget, dkeys]
  | cons p d ih =>
    by_cases hpk : p.1 = k
    · simp [dmem, dget, dkeys, hpk]
    · simp only [dmem, dget, if_neg hpk, dkeys, List.map_cons, List.mem_cons]
      rw [← dkeys, ← dmem, ih]
      constructor
      · exact fun hh => Or.inr hh
      · rintro (hh | hh)
        · exact absurd hh.symm hpk
        · exact hh

/-- Assigning a present key leaves the key sequence unchanged. -/
theorem dkeys_dset_of_mem (d : List (String × PVal)) (k : String) (v : PVal)
    (h : dmem d k = true) : dkeys (dset d k v) = dkeys d := by
  induction d with
  | nil => simp [dmem, dget] at h
  | cons p d ih =>
    by_cases hpk : p.1 = k
    · simp [dset, hpk, dkeys]
    · have h' : dmem d k = true := by simpa [dmem, dget, hpk] using h
      simp [dset, hpk, dkeys]
      exact ih h'

/-- Assigning a fresh key appends it to the key sequence. -/
theorem dkeys_dset_of_not_mem (d : List (String × PVal)) (k : String) (v : PVal)
    (h : dmem d k = false) : dkeys (dset d k v) = dkeys d ++ [k] := by
  induction d with
  | nil => simp [dset, dkeys]
  | cons p d ih =>
    by_cases hpk : p.1 = k
    · simp [dmem, dget, hpk] at h
    · have h' : dmem d k = false := by simpa [dmem, dget, hpk] using h
      simp [dset, hpk, dkeys]
      exact ih h'

/-- Folding assignments preserves distinctness of keys. -/
theorem nodup_dkeys_foldl (l : List (String × PVal)) :
    ∀ d, (dkeys d).Nodup → (dkeys (l.foldl (fun acc p => dset acc p.1 p.2) d)).Nodup := by
  induction l with
  | nil => intro d h; exact h
  | cons p l ih =>
    intro d h
    simp only [List.foldl_cons]
    apply ih
    by_cases hm : dmem d p.1 = true
    · rw [dkeys_dset_of_mem _ _ _ hm]; exact h
    · rw [dkeys_dset_of_not_mem _ _ _ (by simpa using hm)]
      refine List.Nodup.append h (List.nodup_singleton _) ?_
      intro x hx hx2
      simp only [List.mem_singleton] at hx2
      subst hx2
      exact hm ((dmem_iff_mem d p.1).mpr hx)

/-- An entry coming out of an assignment either carries the assigned
key or was already present. -/
theorem mem_dset_name (d : List (String × PVal)) (k : String) (v : PVal) :
    ∀ q ∈ dset d k v, q.1 = k ∨ q ∈ d := by
  induction d with
  | nil =>
    intro q hq
    simp only [dset, List.mem_singleton] at hq
    subst hq
    exact Or.inl rfl
  | cons p d ih =>
    intro q hq
    by_cases hpk : p.1 = k
    · rw [dset, if_pos hpk] at hq
      rcases List.mem_cons.mp hq with hq | hq
      · subst hq; exact Or.inl rfl
      · exact Or.inr (List.mem_cons_of_mem p hq)
    · rw [dset, if_neg hpk] at hq
      rcases List.mem_cons.mp hq with hq | hq
      · subst hq; exact Or.inr (List.mem_cons_self q d)
      · rcases ih q hq with h1 | h2
        · exact Or.inl h1
        · exact Or.inr (List.mem_cons_of_mem p h2)

/-- Keys of a fold of assignments come from the initial dict or from
the assigned pairs. -/
theorem mem_foldl_dset (l : List (String × PVal)) :
    ∀ d q, q ∈ l.foldl (fun acc p => dset acc p.1 p.2) d →
      q ∈ d ∨ ∃ p ∈ l, p.1 = q.1 := by
  induction l with
  | nil => intro d q h; exact Or.inl h
  | cons p l ih =>
    intro d q h
    rcases ih (dset d p.1 p.2) q h with h' | ⟨r, hr, hrq⟩
    · rcases mem_dset_name d p.1 p.2 q h' with h1 | h2
      · exact Or.inr ⟨p, List.mem_cons_self p l, h1.symm⟩
      · exact Or.inl h2
    · exact Or.inr ⟨r, List.mem_cons_of_mem p hr, hrq⟩

/-- `dict(l)` looks up the last value of `l` for each key. -/
theorem dget_pyDict (l : List (String × PVal)) (n : String) :
    dget (pyDict l) n = lastVal l n := by
  rw [pyDict, dget_foldl_dset]
  cases lastVal l n <;> simp [Option.orElse, dget]

/-- Building a dict from a pair list does not change last values. -/
theorem lastVal_pyDict (l : List (String × PVal)) (n : String) :
    lastVal (pyDict l) n = lastVal l n := by
  have hnd : (dkeys (pyDict l)).Nodup := nodup_dkeys_foldl l [] (by simp [dkeys])
  rw [lastVal_eq_dget_of_nodup (pyDict l) n hnd]
  exact dget_pyDict l n

/-- Updating preserves the key sequence when every updated key is
already present. -/
theorem dkeys_dUpdate (pd : List (String × PVal)) :
    ∀ d, (∀ p ∈ pd, dmem d p.1 = true) → dkeys (dUpdate d pd) = dkeys d := by
  induction pd with
  | nil => intro d _; rfl
  | cons p pd ih =>
    intro d h
    simp only [dUpdate, List.foldl_cons]
    rw [show pd.foldl (fun acc q => dset acc q.1 q.2) (dset d p.1 p.2) =
      dUpdate (dset d p.1 p.2) pd from rfl]
    rw [ih (dset d p.1 p.2)
      (fun q hq => dmem_dset_of _ _ _ _ (h q (List.mem_cons_of_mem p hq)))]
    exact dkeys_dset_of_mem d p.1 p.2 (h p (List.mem_cons_self p pd))

/-- Pointwise content of the merge step: each name that occurs among the
valid caller entries reads the caller's (last) value; every other name
reads its default. -/
theorem dget_livyMerge (ps : List PEntry) (n : String) :
    dget (livyMerge (some ps)) n =
      (lastVal (validPairs ps) n).orElse (fun _ => dget livyDefaults n) := by
  show dget (dUpdate livyDefaults (pyDict (validPairs ps))) n = _
  rw [show dUpdate livyDefaults (pyDict (validPairs ps)) =
    (pyDict (validPairs ps)).foldl (fun acc p => dset acc p.1 p.2) livyDefaults from rfl]
  rw [dget_foldl_dset, lastVal_pyDict]

/-- The merge step preserves the defaults' key sequence when every
caller-supplied name is a default name. -/
theorem dkeys_livyMerge (ps : List PEntry)
    (hsub : ∀ p ∈ validPairs ps, dmem livyDefaults p.1 = true) :
    dkeys (livyMerge (some ps)) = dkeys livyDefaults := by
  show dkeys (dUpdate livyDefaults (pyDict (validPairs ps))) = _
  apply dkeys_dUpdate
  intro p hp
  rcases mem_foldl_dset (validPairs ps) [] p hp with h | ⟨r, hr, hrq⟩
  · simp at h
  · exact hrq ▸ hsub r hr

/-- Claim C3: the property merge yields exactly the defaults `D` with
each name that occurs among the (valid) caller entries overridden by
the caller's value — pointwise lookups follow the caller first and the
defaults otherwise, and the key order of `D` is preserved when the
caller names are default names; in particular merging
`{driverMemory: '2G'}` over the defaults gives exactly the defaults
dict with `driverMemory` at `'2G'`, and storing it through
`to_properties` gives exactly `SparkConfiguration.PROPERTIES` with only
the `driverMemory` value replaced. -/
theorem livy_property_merge (ps : List PEntry)
    (hsub : ∀ p ∈ validPairs ps, dmem livyDefaults p.1 = true) :
    (∀ n, dget (livyMerge (some ps)) n =
      (lastVal (validPairs ps) n).orElse (fun _ => dget livyDefaults n)) ∧
    dkeys (livyMerge (some ps)) = dkeys livyDefaults ∧
    livyMerge (some [{ name := some "driverMemory", value := some (PVal.str "2G") }]) =
      [("conf", PVal.confList []), ("jars", PVal.strList []), ("files", PVal.strList []),
       ("pyFiles", PVal.strList []), ("driverMemory", PVal.str "2G"),
       ("driverCores", PVal.num 1), ("executorMemory", PVal.str "1G"),
       ("executorCores", PVal.num 1), ("queue", PVal.str "default"),
       ("archives", PVal.strList [])] ∧
    to_properties
        (some (livyMerge (some [{ name := some "driverMemory", value := some (PVal.str "2G") }]))) =
      SparkConfiguration.PROPERTIES.map
        (fun p => if p.name = "driverMemory" then { p with value := PVal.str "2G" } else p) := by
  refine ⟨fun n => dget_livyMerge ps n, dkeys_livyMerge ps hsub, by decide, by decide⟩

/-- Witness for C3: the `driverMemory` override scenario, checked
through the pointwise characterization and evaluated concretely. -/
theorem livy_property_merge_witness :
    dget (livyMerge (some [{ name := some "driverMemory", value := some (PVal.str "2G") }]))
        "driverMemory" =
      (lastVal (validPairs [{ name := some "driverMemory", value := some (PVal.str "2G") }])
          "driverMemory").orElse (fun _ => dget livyDefaults "driverMemory") ∧
    dkeys (livyMerge (some [{ name := some "driverMemory", value := some (PVal.str "2G") }])) =
      dkeys livyDefaults ∧
    dget (livyMerge (some [{ name := some "driverMemory", value := some (PVal.str "2G") }]))
        "driverMemory" = some (PVal.str "2G") := by
  have h := livy_property_merge
    [{ name := some "driverMemory", value := some (PVal.str "2G") }] (by decide)
  exact ⟨h.1 "driverMemory", h.2.1, by decide⟩

/-! ## Characterizing the error-message matchers -/

/-- Declarative substring containment: `pat` occurs contiguously in `s`. -/
def SubSeg (pat s : List Char) : Prop := ∃ pre post, s = pre ++ pat ++ post

/-- `litAt` is exactly the prefix test. -/
theorem litAt_iff (p : List Char) : ∀ s, litAt p s = true ↔ ∃ r, s = p ++ r := by
  induction p with
  | nil => intro s; simp [litAt]
  | cons a p ih =>
    intro s
    cases s with
    | nil => simp [litAt]
    | cons b t =>
      simp only [litAt, Bool.and_eq_true, decide_eq_true_eq, ih, List.cons_append,
        List.cons.injEq]
      constructor
      · rintro ⟨h1, r, h2⟩
        exact ⟨r, h1.symm, h2⟩
      · rintro ⟨r, h1, h2⟩
        exact ⟨h1.symm, r, h2⟩

/-- `stripLit` is exactly prefix removal. -/
theorem stripLit_eq_some (p : List Char) : ∀ s r, stripLit p s = some r ↔ s = p ++ r := by
  induction p with
  | nil => intro s r; simp [stripLit, eq_comm]
  | cons a p ih =>
    intro s r
    cases s with
    | nil => simp [stripLit]
    | cons b t =>
      simp only [stripLit, List.cons_append, List.cons.injEq]
      by_cases hab : a = b
      · rw [if_pos hab, ih]
        subst hab
        simp
      · rw [if_neg hab]
        simp [Ne.symm hab]

/-- `searchBy f` succeeds exactly on strings with a suffix satisfying
`f`. -/
theorem searchBy_iff (f : List Char → Bool) : ∀ s,
    searchBy f s = true ↔ ∃ pre r, s = pre ++ r ∧ f r = true := by
  intro s
  induction s with
  | nil =>
    simp only [searchBy]
    constructor
    · intro h
      exact ⟨[], [], rfl, h⟩
    · rintro ⟨pre, r, hs, hf⟩
      rcases List.append_eq_nil.mp hs.symm with ⟨rfl, rfl⟩
      exact hf
  | cons c cs ih =>
    simp only [searchBy, Bool.or_eq_true, ih]
    constructor
    · rintro (h | ⟨pre, r, rfl, hf⟩)
      · exact ⟨[], c :: cs, rfl, h⟩
      · exact ⟨c :: pre, r, rfl, hf⟩
    · rintro ⟨pre, r, hs, hf⟩
      cases pre with
      | nil =>
        simp only [List.nil_append] at hs
        exact Or.inl (by rw [← hs] at hf; exact hf)
      | cons d pre =>
        injection hs with h1 h2
        exact Or.inr ⟨pre, r, h2, hf⟩

/-- Python's `pat in s` check is declarative substring containment. -/
theorem containsSeg_iff (pat s : List Char) : containsSeg pat s = true ↔ SubSeg pat s := by
  rw [containsSeg, searchBy_iff]
  constructor
  · rintro ⟨pre, r, rfl, hf⟩
    rcases (litAt_iff pat r).mp hf with ⟨rest, rfl⟩
    exact ⟨pre, rest, (List.append_assoc pre pat rest).symm⟩
  · rintro ⟨pre, post, rfl⟩
    exact ⟨pre, pat ++ post, List.append_assoc pre pat post,
      (litAt_iff pat _).mpr ⟨post, rfl⟩⟩

/-- Characters kept by `takeWhile` satisfy the predicate. -/
theorem mem_takeWhile_pred (p : Char → Bool) : ∀ (l : List Char) (c : Char),
    c ∈ l.takeWhile p → p c = true := by
  intro l
  induction l with
  | nil => intro c h; simp [List.takeWhile] at h
  | cons a l ih =>
    intro c h
    cases hp : p a
    · rw [List.takeWhile_cons_of_neg (by simp [hp])] at h
      simp at h
    · rw [List.takeWhile_cons_of_pos (by simp [hp])] at h
      rcases List.mem_cons.mp h with rfl | h
      · exact hp
      · exact ih c h

/-- A list is its digit prefix followed by what the matcher drops. -/
theorem takeWhile_append_drop_self (p : Char → Bool) : ∀ l : List Char,
    l.takeWhile p ++ l.drop (l.takeWhile p).length = l := by
  intro l
  induction l with
  | nil => rfl
  | cons a l ih =>
    cases hp : p a
    · rw [List.takeWhile_cons_of_neg (by simp [hp])]
      simp
    · rw [List.takeWhile_cons_of_pos (by simp [hp])]
      simp only [List.length_cons, List.drop_succ_cons, List.cons_append]
      rw [ih]

/-- Greedy digit munching on `ds ++ '\'' :: tail` takes exactly `ds`
when `ds` is all digits. -/
theorem takeWhile_digits_exact (ds tail : List Char) (hds : ∀ c ∈ ds, c.isDigit = true) :
    (ds ++ qc :: tail).takeWhile Char.isDigit = ds ∧
    (ds ++ qc :: tail).drop ds.length = qc :: tail := by
  constructor
  · rw [List.takeWhile_append_of_pos hds,
      List.takeWhile_cons_of_neg (by decide : ¬Char.isDigit qc = true)]
    simp
  · exact List.drop_left ds (qc :: tail)

/-- The head-anchored regex matcher accepts exactly the strings starting
with `session not found` or with `session '<digits>' not found`. -/
theorem sessGoneAt_iff (s : List Char) :
    sessGoneAt s = true ↔
      (∃ r, s = "session not found".toList ++ r) ∨
      (∃ ds r, ds ≠ [] ∧ (∀ c ∈ ds, c.isDigit = true) ∧
        s = "session ".toList ++ qc :: (ds ++ qc :: (" not found".toList ++ r))) := by
  have hsess : "session not found".toList = "session ".toList ++ "not found".toList := by
    decide
  constructor
  · intro h
    unfold sessGoneAt at h
    cases hst : stripLit "session ".toList s with
    | none => rw [hst] at h; simp at h
    | some r =>
      rw [hst] at h
      have hs : s = "session ".toList ++ r := (stripLit_eq_some _ _ _).mp hst
      simp only [Bool.or_eq_true] at h
      rcases h with h | h
      · rcases (litAt_iff _ _).mp h with ⟨rest, rfl⟩
        refine Or.inl ⟨rest, ?_⟩
        rw [hs, hsess, List.append_assoc]
      · cases r with
        | nil => simp at h
        | cons c r2 =>
          simp only [Bool.and_eq_true, decide_eq_true_eq] at h
          obtain ⟨hc, hne, hlit⟩ := h
          subst hc
          rcases (litAt_iff _ _).mp hlit with ⟨rest, hdrop⟩
          have hsplit := takeWhile_append_drop_self Char.isDigit r2
          rw [hdrop] at hsplit
          refine Or.inr ⟨r2.takeWhile Char.isDigit, rest, ?_, ?_, ?_⟩
          · intro hnil
            rw [hnil] at hne
            simp at hne
          · exact fun c hcm => mem_takeWhile_pred _ _ _ hcm
          · have hr2 : r2 =
                List.takeWhile Char.isDigit r2 ++ qc :: (" not found".toList ++ rest) := by
              conv_lhs => rw [← hsplit]
              simp
            rw [hs]
            conv_lhs => rw [hr2]
  · intro h
    unfold sessGoneAt
    rcases h with ⟨r, rfl⟩ | ⟨ds, r, hne, hds, rfl⟩
    · have h1 : stripLit "session ".toList ("session not found".toList ++ r) =
          some ("not found".toList ++ r) := by
        rw [stripLit_eq_some, hsess, List.append_assoc]
      rw [h1]
      simp only [Bool.or_eq_true]
      exact Or.inl ((litAt_iff _ _).mpr ⟨r, rfl⟩)
    · have h1 : stripLit "session ".toList
          ("session ".toList ++ qc :: (ds ++ qc :: (" not found".toList ++ r))) =
          some (qc :: (ds ++ qc :: (" not found".toList ++ r))) :=
        (stripLit_eq_some _ _ _).mpr rfl
      rw [h1]
      simp only [Bool.or_eq_true]
      refine Or.inr ?_
      have htw := takeWhile_digits_exact ds (" not found".toList ++ r) hds
      simp only [Bool.and_eq_true, decide_eq_true_eq]
      refine ⟨trivial, ?_, ?_⟩
      · rw [htw.1]
        cases ds with
        | nil => exact absurd rfl hne
        | cons d ds => simp
      · rw [htw.1, htw.2]
        exact (litAt_iff _ _).mpr ⟨r, by simp⟩

/-- The unanchored regex search accepts exactly the strings containing a
`session not found` or `session '<digits>' not found` segment. -/
theorem sessGoneSearch_iff (s : List Char) :
    sessGoneSearch s = true ↔
      SubSeg "session not found".toList s ∨
      ∃ ds, ds ≠ [] ∧ (∀ c ∈ ds, c.isDigit = true) ∧
        SubSeg ("session ".toList ++ [qc] ++ ds ++ [qc] ++ " not found".toList) s := by
  rw [sessGoneSearch, searchBy_iff]
  constructor
  · rintro ⟨pre, r, rfl, hf⟩
    rcases (sessGoneAt_iff r).mp hf with ⟨rest, rfl⟩ | ⟨ds, rest, hne, hds, rfl⟩
    · exact Or.inl ⟨pre, rest, by rw [List.append_assoc]⟩
    · refine Or.inr ⟨ds, hne, hds, pre, rest, ?_⟩
      simp [List.append_assoc]
  · rintro (⟨pre, post, rfl⟩ | ⟨ds, hne, hds, pre, post, rfl⟩)
    · refine ⟨pre, "session not found".toList ++ post, by rw [List.append_assoc], ?_⟩
      exact (sessGoneAt_iff _).mpr (Or.inl ⟨post, rfl⟩)
    · refine ⟨pre, "session ".toList ++ qc :: (ds ++ qc :: (" not found".toList ++ post)),
        ?_, ?_⟩
      · simp [List.append_assoc]
      · exact (sessGoneAt_iff _).mpr (Or.inr ⟨ds, post, hne, hds, rfl⟩)

/-- The full submit-error classifier of `_execute`, declaratively. -/
theorem livyErrMatch_iff (m : List Char) :
    livyErrMatch m = true ↔
      SubSeg "session not found".toList m ∨
      (∃ ds, ds ≠ [] ∧ (∀ c ∈ ds, c.isDigit = true) ∧
        SubSeg ("session ".toList ++ [qc] ++ ds ++ [qc] ++ " not found".toList) m) ∨
      SubSeg "connection refused".toList m ∨
      SubSeg "session is in state busy".toList m := by
  rw [livyErrMatch]
  simp only [Bool.or_eq_true, sessGoneSearch_iff, containsSeg_iff, or_assoc]

/-- Claim C7: a submit error is reclassified as `SessionExpired` exactly
when its lowercased message contains `session not found`,
`session '<digits>' not found`, `connection refused` or
`session is in state busy`; every other error is re-raised unchanged,
and a successful submit is wrapped untouched. -/
theorem submit_error_classification (e : String) :
    (submit_translate (Except.error e) = Except.error (ExecErr.sessionExpired e) ↔
      (SubSeg "session not found".toList (pyLower e) ∨
       (∃ ds, ds ≠ [] ∧ (∀ c ∈ ds, c.isDigit = true) ∧
         SubSeg ("session ".toList ++ [qc] ++ ds ++ [qc] ++ " not found".toList)
           (pyLower e)) ∨
       SubSeg "connection refused".toList (pyLower e) ∨
       SubSeg "session is in state busy".toList (pyLower e))) ∧
    (¬(SubSeg "session not found".toList (pyLower e) ∨
       (∃ ds, ds ≠ [] ∧ (∀ c ∈ ds, c.isDigit = true) ∧
         SubSeg ("session ".toList ++ [qc] ++ ds ++ [qc] ++ " not found".toList)
           (pyLower e)) ∨
       SubSeg "connection refused".toList (pyLower e) ∨
       SubSeg "session is in state busy".toList (pyLower e)) →
      submit_translate (Except.error e) = Except.error (ExecErr.other e)) ∧
    (∀ i, submit_translate (Except.ok i) =
      Except.ok { id := i, has_result_set := true, sync := false }) := by
  have hiff := livyErrMatch_iff (pyLower e)
  by_cases hm : livyErrMatch (pyLower e) = true
  · refine ⟨?_, ?_, fun i => rfl⟩
    · simp only [submit_translate, if_pos hm]
      exact iff_of_true trivial (hiff.mp hm)
    · intro hnot
      exact absurd (hiff.mp hm) hnot
  · refine ⟨?_, ?_, fun i => rfl⟩
    · simp only [submit_translate, if_neg hm]
      constructor
      · intro hcontra
        simp at hcontra
      · intro hd
        exact absurd (hiff.mpr hd) hm
    · intro _
      simp only [submit_translate, if_neg hm]

/-- Witness for C7: the message `Session NOT found` (lowercased to
`session not found`) is classified as expired. -/
theorem submit_error_classification_witness :
    submit_translate (Except.error "Session NOT found") =
      Except.error (ExecErr.sessionExpired "Session NOT found") :=
  (submit_error_classification "Session NOT found").1.mpr (Or.inl ⟨[], [], by decide⟩)

/-! ## The unused-session sweep -/

/-- When every matching close succeeds, the sweep closes exactly the
sessions passing the owner / different-id / reapable-state filter, in
listing order, and leaves the stored record untouched. -/
theorem sweepLoop_all_success (username : String) (st : StoredSession)
    (closeRes : Nat → RemoteCloseRes) : ∀ sessions : List LivySessionEntry,
    (∀ s ∈ sessions, shouldReap username st.id s = true →
      closeRes s.id = RemoteCloseRes.success) →
    sweepLoop username st.id closeRes (some st) sessions =
      Except.ok ((sessions.filter (shouldReap username st.id)).map (fun s => s.id),
        some st) := by
  intro sessions
  induction sessions with
  | nil => intro _; rfl
  | cons s rest ih =>
    intro hf
    have ihr := ih (fun q hq hq2 => hf q (List.mem_cons_of_mem s hq) hq2)
    by_cases hs : shouldReap username st.id s = true
    · have hcr := hf s (List.mem_cons_self s rest) hs
      have hne : st.id ≠ s.id := by
        have h2 := hs
        simp only [shouldReap, Bool.and_eq_true, decide_eq_true_eq] at h2
        exact fun hh => h2.1.2 hh.symm
      simp only [sweepLoop, if_pos hs, hcr]
      simp only [close_session, storedMatches]
      simp [hne, ihr, List.filter_cons, hs]
    · simp only [sweepLoop, if_neg hs]
      simp [ihr, List.filter_cons, hs]

/-- A 404 close response on a matching session aborts the sweep with
`SessionExpired`, regardless of how many matching sessions were closed
before it and of what follows. -/
theorem sweepLoop_abort (username : String) (st : StoredSession)
    (closeRes : Nat → RemoteCloseRes) (s : LivySessionEntry) (post : List LivySessionEntry)
    (hs : shouldReap username st.id s = true)
    (h404 : closeRes s.id = RemoteCloseRes.restErr 404) :
    ∀ pre : List LivySessionEntry,
    (∀ t ∈ pre, shouldReap username st.id t = true →
      closeRes t.id = RemoteCloseRes.success) →
    sweepLoop username st.id closeRes (some st) (pre ++ s :: post) =
      Except.error SweepErr.expired := by
  intro pre
  induction pre with
  | nil =>
    intro _
    simp only [List.nil_append, sweepLoop, if_pos hs, h404]
    simp [close_session]
  | cons t pre ih =>
    intro hf
    have ihr := ih (fun q hq hq2 => hf q (List.mem_cons_of_mem t hq) hq2)
    by_cases ht : shouldReap username st.id t = true
    · have hcr := hf t (List.mem_cons_self t pre) ht
      have hne : st.id ≠ t.id := by
        have h2 := ht
        simp only [shouldReap, Bool.and_eq_true, decide_eq_true_eq] at h2
        exact fun hh => h2.1.2 hh.symm
      simp only [List.cons_append, sweepLoop, if_pos ht, hcr]
      simp only [close_session, storedMatches]
      simp [hne, ihr]
    · simp only [List.cons_append, sweepLoop, if_neg ht]
      exact ihr

/-- Claim C8 (amended): the sweep closes exactly the sessions owned by
the user, in a reapable state and with an id different from the stored
session's — provided each of those closes succeeds; an enumeration
failure is swallowed and closes nothing; but an individual close
answered 404 raises `SessionExpired` through the loop, aborting the
sweep of the remaining sessions. -/
theorem close_unused_sessions_amended (username : String) (st : StoredSession)
    (closeRes : Nat → RemoteCloseRes) :
    (∀ stored, close_unused_sessions none username stored closeRes =
      Except.ok ([], stored)) ∧
    (∀ sessions : List LivySessionEntry,
      (∀ s ∈ sessions, shouldReap username st.id s = true →
        closeRes s.id = RemoteCloseRes.success) →
      close_unused_sessions (some sessions) username (some st) closeRes =
        Except.ok ((sessions.filter (shouldReap username st.id)).map (fun s => s.id),
          some st)) ∧
    (∀ (pre : List LivySessionEntry) (s : LivySessionEntry) (post : List LivySessionEntry),
      (∀ t ∈ pre, shouldReap username st.id t = true →
        closeRes t.id = RemoteCloseRes.success) →
      shouldReap username st.id s = true →
      closeRes s.id = RemoteCloseRes.restErr 404 →
      close_unused_sessions (some (pre ++ s :: post)) username (some st) closeRes =
        Except.error SweepErr.expired) :=
  ⟨fun _ => rfl,
   fun sessions hf => sweepLoop_all_success username st closeRes sessions hf,
   fun pre s post hf hs h404 => sweepLoop_abort username st closeRes s post hs h404 pre hf⟩

/-- Counterexample for C8 as stated: with two reapable sessions owned
by `bob` and a remote close that answers 404, the sweep does not
"log and continue" — it aborts with `SessionExpired` after the first
close, and in particular does not return the completed sweep of both
sessions. -/
theorem close_unused_sessions_abort_cex :
    close_unused_sessions
        (some [{ id := 1, owner := "bob", state := SessState.idle },
               { id := 2, owner := "bob", state := SessState.idle }])
        "bob" (some { typ := "scala", id := 7, properties := [] })
        (fun _ => RemoteCloseRes.restErr 404) = Except.error SweepErr.expired ∧
    close_unused_sessions
        (some [{ id := 1, owner := "bob", state := SessState.idle },
               { id := 2, owner := "bob", state := SessState.idle }])
        "bob" (some { typ := "scala", id := 7, properties := [] })
        (fun _ => RemoteCloseRes.restErr 404) ≠
      Except.ok ([1, 2], some { typ := "scala", id := 7, properties := [] }) := by
  refine ⟨rfl, ?_⟩
  intro h
  rw [show close_unused_sessions
      (some [{ id := 1, owner := "bob", state := SessState.idle },
             { id := 2, owner := "bob", state := SessState.idle }])
      "bob" (some { typ := "scala", id := 7, properties := [] })
      (fun _ => RemoteCloseRes.restErr 404) = Except.error SweepErr.expired from rfl] at h
  exact Except.noConfusion h

/-- Witness for the amended C8: a successful sweep closes exactly the
filtered sessions, and an enumeration failure closes nothing. -/
theorem close_unused_sessions_amended_witness :
    close_unused_sessions
        (some [{ id := 1, owner := "bob", state := SessState.idle },
               { id := 2, owner := "bob", state := SessState.busy },
               { id := 3, owner := "alice", state := SessState.idle },
               { id := 7, owner := "bob", state := SessState.idle },
               { id := 4, owner := "bob", state := SessState.dead }])
        "bob" (some { typ := "scala", id := 7, properties := [] })
        (fun _ => RemoteCloseRes.success) =
      Except.ok ([1, 4], some { typ := "scala", id := 7, properties := [] }) ∧
    close_unused_sessions none "bob" (some { typ := "scala", id := 7, properties := [] })
        (fun _ => RemoteCloseRes.success) =
      Except.ok ([], some { typ := "scala", id := 7, properties := [] }) := by
  have h := close_unused_sessions_amended "bob"
    { typ := "scala", id := 7, properties := [] } (fun _ => RemoteCloseRes.success)
  constructor
  · have h2 := h.2.1
      [{ id := 1, owner := "bob", state := SessState.idle },
       { id := 2, owner := "bob", state := SessState.busy },
       { id := 3, owner := "alice", state := SessState.idle },
       { id := 7, owner := "bob", state := SessState.idle },
       { id := 4, owner := "bob", state := SessState.dead }]
      (fun s hs hr => rfl)
    rw [h2]
    rfl
  · exact h.1 (some { typ := "scala", id := 7, properties := [] })
